import Mathlib

/-!
Verification of the VenueBot host-bot core against its source.

Python strings are represented as `List Nat` of Unicode scalar values, and
byte strings as `List Nat` of values below 256.  Fallible Python code is
embedded as functions into `Except`/sum-like result types; every exception
path of the source appears as an explicit error constructor.
-/

namespace VenueBot

/-- Unicode scalar values of a Lean string literal; used to write the
Python string constants of the source. -/
def pystr (s : String) : List Nat := s.data.map Char.toNat

/-! ### Identity codec: base64 (src/hostbot/storage.py `save_zoom_name_to_file`,
src/hostbot.py `queue_worker` / `on_message`) -/

/-- The standard base64 alphabet `A-Z a-z 0-9 + /`, as ASCII codes,
indexed by the 6-bit value each character denotes. -/
def b64Alphabet : List Nat :=
  [65, 66, 67, 68, 69, 70, 71, 72, 73, 74, 75, 76, 77, 78, 79, 80,
   81, 82, 83, 84, 85, 86, 87, 88, 89, 90,
   97, 98, 99, 100, 101, 102, 103, 104, 105, 106, 107, 108, 109, 110,
   111, 112, 113, 114, 115, 116, 117, 118, 119, 120, 121, 122,
   48, 49, 50, 51, 52, 53, 54, 55, 56, 57, 43, 47]

/-- ASCII code of the base64 character for a 6-bit value. -/
def encChar (k : Nat) : Nat := b64Alphabet.getD k 0

/-- The 6-bit value of a base64 alphabet character, `none` for a
non-alphabet character (the `table_a2b_base64` lookup of CPython binascii). -/
def decChar (c : Nat) : Option Nat := List.findIdx? (fun x => x == c) b64Alphabet

/-- ASCII code of the base64 padding character `=`. -/
def padChar : Nat := 61

/-- Python `base64.b64encode` on a byte list: big-endian 6-bit groups over 3-byte
blocks, with `=` padding for a 1- or 2-byte tail (CPython `binascii.b2a_base64`). -/
def b64encode : List Nat → List Nat
  | [] => []
  | [b1] => [encChar (b1 / 4), encChar (b1 % 4 * 16), padChar, padChar]
  | [b1, b2] => [encChar (b1 / 4), encChar (b1 % 4 * 16 + b2 / 16),
                 encChar (b2 % 16 * 4), padChar]
  | b1 :: b2 :: b3 :: rest =>
      encChar (b1 / 4) :: encChar (b1 % 4 * 16 + b2 / 16) ::
      encChar (b2 % 16 * 4 + b3 / 64) :: encChar (b3 % 64) :: b64encode rest

/-- Failure modes of CPython `binascii.a2b_base64` in non-strict mode:
a number of data characters that is 1 more than a multiple of 4, or
missing/invalid padding at the end of the data. -/
inductive B64Error where
  | invalidLength
  | invalidPadding
deriving DecidableEq

/-- The non-strict `binascii.a2b_base64` loop (CPython `Modules/binascii.c`):
state is the remaining input, the position inside the current 4-character
group (`quad_pos`), the pending bits (`leftchar`), and the count of the
current run of padding characters (`pads`).  Non-alphabet characters are
skipped; a `=` at `quad_pos ≥ 2` that completes a pad sequence terminates
the decode successfully; leftover group positions at the end are errors. -/
def a2b : List Nat → Nat → Nat → Nat → Except B64Error (List Nat)
  | [], 0, _, _ => .ok []
  | [], 1, _, _ => .error .invalidLength
  | [], _, _, _ => .error .invalidPadding
  | c :: rest, q, l, p =>
    if c = padChar then
      if 2 ≤ q then
        if 4 ≤ q + (p + 1) then .ok []
        else a2b rest q l (p + 1)
      else a2b rest q l p
    else
      match decChar c with
      | none => a2b rest q l p
      | some v =>
        match q with
        | 0 => a2b rest 1 v 0
        | 1 => (a2b rest 2 (v % 16) 0).map (fun bs => (l * 4 + v / 16) :: bs)
        | 2 => (a2b rest 3 (v % 4) 0).map (fun bs => (l * 16 + v / 4) :: bs)
        | _ => (a2b rest 0 0 0).map (fun bs => (l * 64 + v) :: bs)

/-- Python `base64.b64decode` with the default `validate=False` on an ASCII string. -/
def b64decode (token : List Nat) : Except B64Error (List Nat) := a2b token 0 0 0

/-! ### UTF-8 (Python `str.encode()` / `bytes.decode("utf-8")`) -/

/-- A Unicode scalar value that Python can encode to UTF-8: any code point
outside the surrogate range (encoding a lone surrogate raises). -/
def isValidScalar (n : Nat) : Prop := n < 0xD800 ∨ (0xE000 ≤ n ∧ n < 0x110000)

instance (n : Nat) : Decidable (isValidScalar n) := by
  unfold isValidScalar; infer_instance

/-- UTF-8 bytes of one scalar value (1 to 4 bytes). -/
def utf8EncodeChar (n : Nat) : List Nat :=
  if n < 0x80 then [n]
  else if n < 0x800 then [0xC0 + n / 64, 0x80 + n % 64]
  else if n < 0x10000 then
    [0xE0 + n / 4096, 0x80 + n / 64 % 64, 0x80 + n % 64]
  else
    [0xF0 + n / 262144, 0x80 + n / 4096 % 64, 0x80 + n / 64 % 64, 0x80 + n % 64]

/-- Python `str.encode()`: UTF-8 bytes of a scalar string. -/
def utf8Encode : List Nat → List Nat
  | [] => []
  | c :: cs => utf8EncodeChar c ++ utf8Encode cs

/-- A UTF-8 continuation byte `0x80`-`0xBF`. -/
def isCont (b : Nat) : Prop := 0x80 ≤ b ∧ b < 0xC0

instance (b : Nat) : Decidable (isCont b) := by unfold isCont; infer_instance

/-- Scalar value of a 2-byte UTF-8 sequence. -/
def scalar2 (b1 b2 : Nat) : Nat := (b1 - 0xC0) * 64 + (b2 - 0x80)

/-- Scalar value of a 3-byte UTF-8 sequence. -/
def scalar3 (b1 b2 b3 : Nat) : Nat := (b1 - 0xE0) * 4096 + (b2 - 0x80) * 64 + (b3 - 0x80)

/-- Scalar value of a 4-byte UTF-8 sequence. -/
def scalar4 (b1 b2 b3 b4 : Nat) : Nat :=
  (b1 - 0xF0) * 262144 + (b2 - 0x80) * 4096 + (b3 - 0x80) * 64 + (b4 - 0x80)

/-- Well-formedness of a 3-byte sequence: proper continuation bytes, not
overlong, not a surrogate. -/
def valid3 (b1 b2 b3 : Nat) : Prop :=
  isCont b2 ∧ isCont b3 ∧ 0x800 ≤ scalar3 b1 b2 b3 ∧
  (scalar3 b1 b2 b3 < 0xD800 ∨ 0xE000 ≤ scalar3 b1 b2 b3)

instance (b1 b2 b3 : Nat) : Decidable (valid3 b1 b2 b3) := by unfold valid3; infer_instance

/-- Well-formedness of a 4-byte sequence: proper continuation bytes, not
overlong, at most `0x10FFFF`. -/
def valid4 (b1 b2 b3 b4 : Nat) : Prop :=
  isCont b2 ∧ isCont b3 ∧ isCont b4 ∧ 0x10000 ≤ scalar4 b1 b2 b3 b4 ∧
  scalar4 b1 b2 b3 b4 < 0x110000

instance (b1 b2 b3 b4 : Nat) : Decidable (valid4 b1 b2 b3 b4) := by
  unfold valid4; infer_instance

mutual

/-- Strict UTF-8 decoding as in `bytes.decode("utf-8")`: rejects invalid
lead bytes (`0x80`-`0xC1`, `0xF5`-`0xFF`), truncated or malformed
continuation bytes, overlong forms, surrogates and code points above
`0x10FFFF`; `none` is Python's `UnicodeDecodeError`. -/
def utf8Decode : List Nat → Option (List Nat)
  | [] => some []
  | b1 :: rest =>
    if b1 < 0x80 then (utf8Decode rest).map (b1 :: ·)
    else if b1 < 0xC2 then none
    else if b1 < 0xE0 then utf8Cont1 b1 rest
    else if b1 < 0xF0 then utf8Cont2 b1 rest
    else if b1 < 0xF5 then utf8Cont3 b1 rest
    else none

/-- The continuation byte of a 2-byte sequence. -/
def utf8Cont1 : Nat → List Nat → Option (List Nat)
  | b1, b2 :: rest =>
    if isCont b2 then (utf8Decode rest).map (scalar2 b1 b2 :: ·) else none
  | _, [] => none

/-- The continuation bytes of a 3-byte sequence. -/
def utf8Cont2 : Nat → List Nat → Option (List Nat)
  | b1, b2 :: b3 :: rest =>
    if valid3 b1 b2 b3 then (utf8Decode rest).map (scalar3 b1 b2 b3 :: ·) else none
  | _, _ => none

/-- The continuation bytes of a 4-byte sequence. -/
def utf8Cont3 : Nat → List Nat → Option (List Nat)
  | b1, b2 :: b3 :: b4 :: rest =>
    if valid4 b1 b2 b3 b4 then (utf8Decode rest).map (scalar4 b1 b2 b3 b4 :: ·) else none
  | _, _ => none

end

/-! ### The full decode pipeline `base64.b64decode(token).decode("utf-8")`
(src/hostbot.py lines 906-917 and 145) -/

/-- Outcome of the Python expression `base64.b64decode(token).decode("utf-8")`
on a `str` token: success, `binascii.Error` (a bad base64 structure),
`UnicodeDecodeError` (decoded bytes not valid UTF-8), or the plain
`ValueError` that `base64._bytes_from_decode_data` raises when the token
itself is not pure ASCII. -/
inductive PyDecodeResult where
  | ok (text : List Nat)
  | binasciiError
  | unicodeDecodeError
  | valueError
deriving DecidableEq

/-- The expression `base64.b64decode(token).decode("utf-8")` on a `str` token. -/
def decodeToken (token : List Nat) : PyDecodeResult :=
  if ∀ c ∈ token, c < 128 then
    match b64decode token with
    | .error _ => .binasciiError
    | .ok bytes =>
      match utf8Decode bytes with
      | some text => .ok text
      | none => .unicodeDecodeError
  else .valueError

/-! ### Co-host request queue (src/hostbot.py `Request`, `HostCommandView.self_assign_cohost`,
`queue_worker`).  `asyncio.Queue` is a FIFO: `put` appends at the tail,
`get` pops the head, `qsize` is the current length. -/

/-- The queued payload (src/hostbot.py lines 66-70). -/
structure Request where
  encoded_name : List Nat
deriving DecidableEq

/-- Models `await request_queue.put(r)`. -/
def enqueuePut (q : List Request) (r : Request) : List Request := q ++ [r]

/-- Models `request_queue.qsize()`. -/
def qsize (q : List Request) : Nat := q.length

/-- The enqueue step of `self_assign_cohost` (src/hostbot.py lines 169-170):
put the request, then report `qsize()` as the position in line. -/
def selfAssignEnqueue (q : List Request) (r : Request) : List Request × Nat :=
  (enqueuePut q r, qsize (enqueuePut q r))

/-- Sequential enqueues with no interleaved dequeues: the final queue and
the list of reported positions. -/
def enqueueAll (q : List Request) : List Request → List Request × List Nat
  | [] => (q, [])
  | r :: rs =>
    ((enqueueAll (selfAssignEnqueue q r).1 rs).1,
     (selfAssignEnqueue q r).2 :: (enqueueAll (selfAssignEnqueue q r).1 rs).2)

/-- The log-channel event one `queue_worker` iteration emits for a request
(src/hostbot.py lines 142-151): the trigger call yields `success`, then the
payload is base64-decoded for reporting; if that decode (or anything else in
the `try` block) raises, the exception is caught and only logged. -/
inductive WorkerEvent where
  | assigned (name : List Nat)
  | failed (name : List Nat)
  | workerError
deriving DecidableEq

/-- The body of the worker's `try`/`except` for one request: `success`
is the boolean result of `send_trigger_cmd` (which never raises). -/
def processRequest (success : Bool) (r : Request) : WorkerEvent :=
  match decodeToken r.encoded_name with
  | .ok name => if success then .assigned name else .failed name
  | _ => .workerError

/-- Initial value of the runtime-adjustable cooldown (src/hostbot.py line 62). -/
def queue_delay : Nat := 10

/-- State of the queue worker: pending requests, emitted log events,
and a clock that advances by the cooldown after each processed item. -/
structure WorkerState where
  queue : List Request
  log : List WorkerEvent
  clock : Nat
deriving DecidableEq

/-- One iteration of the `while True` loop of `queue_worker`: block until an
item is available (modelled as no change on an empty queue), pop the head,
process it inside `try`/`except`, then `await asyncio.sleep(queue_delay)`
unconditionally.  `trigger` gives the boolean outcome of the TriggerCMD call
for each request. -/
def workerStep (trigger : Request → Bool) (delay : Nat) (st : WorkerState) : WorkerState :=
  match st.queue with
  | [] => st
  | r :: rest => ⟨rest, st.log ++ [processRequest (trigger r) r], st.clock + delay⟩

/-- Runs `n` iterations of the worker loop. -/
def workerRun (trigger : Request → Bool) (delay : Nat) (st : WorkerState) : Nat → WorkerState
  | 0 => st
  | n + 1 => workerRun trigger delay (workerStep trigger delay st) n

/-! ### Trigger client (src/hostbot/triggercmd.py `_call_trigger`) -/

/-- Outcome of the `urllib.request.urlopen` POST plus `response.read()`:
a 2xx response whose body was fully read, an `HTTPError` for a non-2xx
status, or any other transport failure (`URLError`, timeout, a failure
while reading the body, ...). -/
inductive HttpOutcome where
  | success (body : List Nat)
  | httpError (code : Nat) (body : List Nat)
  | transportError
deriving DecidableEq

/-- Models `_call_trigger(trigger, params)` given the configured token and the
outcome of the one HTTP exchange.  An empty token raises `ValueError`
inside the `try`, which the final `except Exception` turns into `False`;
`HTTPError` and every other exception are likewise caught and logged, so the
returned boolean is the only channel out of the function. -/
def _call_trigger (token : List Nat) (trigger : List Nat) (params : Option (List Nat))
    (outcome : HttpOutcome) : Bool :=
  if token = [] then false
  else
    match outcome with
    | .success _ => true
    | .httpError _ _ => false
    | .transportError => false

/-! ### Key-value store (src/hostbot/storage.py).  JSON values of the data
file / Firebase document; Python dicts preserve insertion order, so an
object is an ordered association list. -/

/-- A JSON-like value as stored by `json.dump` / Firebase. -/
inductive Json where
  | jnull
  | jstr (s : List Nat)
  | jnum (n : Int)
  | jobj (fields : List (List Nat × Json))

/-- The top-level document: a JSON object. -/
abbrev Dict := List (List Nat × Json)

/-- The constant `DATA_USER_PATH = "hostbot"` (src/hostbot/config.py line 35). -/
def DATA_USER_PATH : List Nat := pystr "hostbot"

/-- Python `d.get(k)` / `d[k]` lookup. -/
def dictGet (d : Dict) (k : List Nat) : Option Json :=
  match d with
  | [] => none
  | (k2, v) :: rest => if k2 = k then some v else dictGet rest k

/-- Python `d[k] = v`: replace in place if the key exists, else append. -/
def dictSet (d : Dict) (k : List Nat) (v : Json) : Dict :=
  match d with
  | [] => [(k, v)]
  | (k2, v2) :: rest => if k2 = k then (k2, v) :: rest else (k2, v2) :: dictSet rest k v

/-- The exception a storage helper can raise from its dict manipulation. -/
inductive PyError where
  | typeError
deriving DecidableEq

/-- Models `base = store.setdefault(k1, dict()); base[k2] = v` — the mutation pattern of
the storage helpers.  If the existing value under `k1` is not a dict, the
item assignment on it raises `TypeError`. -/
def setInnerKey (store : Dict) (k1 k2 : List Nat) (v : Json) : Except PyError Dict :=
  match dictGet store k1 with
  | none => .ok (dictSet store k1 (.jobj [(k2, v)]))
  | some (.jobj fields) => .ok (dictSet store k1 (.jobj (dictSet fields k2 v)))
  | some _ => .error .typeError

/-- The local `HOSTBOT_DATA_FILE`: absent, unparseable JSON, or a stored
document. -/
inductive LocalFile where
  | missing
  | corrupt
  | stored (d : Dict)

/-- The Firebase Realtime Database contents: the `data` child used by
`load_data`/`save_data` and the per-user documents used by
`save_zoom_name_to_file`/`get_zoom_name_from_file`. -/
structure RemoteDb where
  dataDoc : Option Dict
  userDocs : List (Nat × Json)

/-- The cached backend selection of `_get_realtime_db`: not configured
(`None`), configured but raising on every read/write (network or credential
errors), or configured and working. -/
inductive RemoteState where
  | absent
  | failing
  | ready (db : RemoteDb)

/-- The whole persistence state seen by the storage module. -/
structure Store where
  remote : RemoteState
  localFile : LocalFile

/-- Reading the local JSON file (src/hostbot/storage.py lines 62-69):
`FileNotFoundError` yields `{}`, `json.JSONDecodeError` is logged and
yields `{}`. -/
def localLoad : LocalFile → Dict
  | .missing => []
  | .corrupt => []
  | .stored d => d

/-- Models `load_data` (src/hostbot/storage.py lines 53-69): try the Firebase
`data` child first (`or {}` turns a null into `{}`); on a remote failure
fall through to the local file. -/
def load_data (st : Store) : Dict :=
  match st.remote with
  | .ready db => db.dataDoc.getD []
  | .failing => localLoad st.localFile
  | .absent => localLoad st.localFile

/-- Models `save_data` (src/hostbot/storage.py lines 72-83): write to the Firebase
`data` child and return; on a remote failure (or no remote) overwrite the
local file instead. -/
def save_data (st : Store) (d : Dict) : Store :=
  match st.remote with
  | .ready db => { st with remote := .ready { db with dataDoc := some d } }
  | .failing => { st with localFile := .stored d }
  | .absent => { st with localFile := .stored d }

/-- Python `str(user_id)` for a numeric id. -/
def natToStr (n : Nat) : List Nat := (Nat.toDigits 10 n).map Char.toNat

/-- Python `d[k] = v` on a per-user document collection keyed by numeric id. -/
def userDocsSet (l : List (Nat × Json)) (k : Nat) (v : Json) : List (Nat × Json) :=
  match l with
  | [] => [(k, v)]
  | (k2, v2) :: rest => if k2 = k then (k2, v) :: rest else (k2, v2) :: userDocsSet rest k v

/-- The record `save_zoom_name_to_file` builds (src/hostbot/storage.py
lines 92-98), with `now` for `int(time.time())`. -/
def zoomRecord (zoom_name : List Nat) (now : Nat) : Json :=
  .jobj [(pystr "zoomName", .jstr zoom_name),
         (pystr "base64", .jstr (b64encode (utf8Encode zoom_name))),
         (pystr "lastUsed", .jnum now),
         (pystr "telegramId", .jstr [])]

/-- Models `save_zoom_name_to_file` (src/hostbot/storage.py lines 89-112): encode
the name, then persist the record — to the per-user Firebase document when
the remote works; otherwise (no remote, or the remote write raised and was
logged) read-modify-write the local tree under `DATA_USER_PATH`.  The
nested-dict assignment raises `TypeError` when the stored tree holds a
non-object under `DATA_USER_PATH`.  Returns the encoded name. -/
def save_zoom_name_to_file (st : Store) (user_id : Nat) (zoom_name : List Nat) (now : Nat) :
    Except PyError (Store × List Nat) :=
  let encoded := b64encode (utf8Encode zoom_name)
  match st.remote with
  | .ready db =>
      .ok ({ st with
              remote := .ready { db with
                userDocs := userDocsSet db.userDocs user_id (zoomRecord zoom_name now) } },
           encoded)
  | _ =>
    match setInnerKey (load_data st) DATA_USER_PATH (natToStr user_id)
        (zoomRecord zoom_name now) with
    | .ok store2 => .ok (save_data st store2, encoded)
    | .error e => .error e

/-- The stored tree is what this program itself writes: under
`DATA_USER_PATH` there is either nothing yet or a JSON object. -/
def wfDict (store : Dict) : Bool :=
  match dictGet store DATA_USER_PATH with
  | none => true
  | some (.jobj _) => true
  | some _ => false

/-- The persistence state only holds trees this program itself writes. -/
def wfStore (st : Store) : Bool := wfDict (load_data st)

/-- Models `save_room_number` (src/hostbot/storage.py lines 160-166). -/
def save_room_number (st : Store) (number : List Nat) : Except PyError Store :=
  (setInnerKey (load_data st) DATA_USER_PATH (pystr "room_number") (.jstr number)).map
    (save_data st)

/-! ### Room number validation (src/hostbot.py `UpdateRoomNumberModal.on_submit`) -/

/-- Python `str.isspace` (the exact whitespace set of CPython's
`Py_UNICODE_ISSPACE`), which is what `str.strip()` removes. -/
def pyIsSpace (c : Nat) : Bool :=
  (9 ≤ c && c ≤ 13) || (28 ≤ c && c ≤ 31) || c == 32 || c == 0x85 || c == 0xA0 ||
  c == 0x1680 || (0x2000 ≤ c && c ≤ 0x200A) || c == 0x2028 || c == 0x2029 ||
  c == 0x202F || c == 0x205F || c == 0x3000

/-- The code point ranges on which CPython's `str.isdigit` is true: every
character whose Unicode `Numeric_Type` is Decimal or Digit (788 code
points), extracted from the Unicode database of CPython 3.11. -/
def pyDigitRanges : List (Nat × Nat) :=
  [(0x30, 0x39), (0xb2, 0xb3), (0xb9, 0xb9), (0x660, 0x669), (0x6f0, 0x6f9),
   (0x7c0, 0x7c9), (0x966, 0x96f), (0x9e6, 0x9ef), (0xa66, 0xa6f), (0xae6, 0xaef),
   (0xb66, 0xb6f), (0xbe6, 0xbef), (0xc66, 0xc6f), (0xce6, 0xcef), (0xd66, 0xd6f),
   (0xde6, 0xdef), (0xe50, 0xe59), (0xed0, 0xed9), (0xf20, 0xf29), (0x1040, 0x1049),
   (0x1090, 0x1099), (0x1369, 0x1371), (0x17e0, 0x17e9), (0x1810, 0x1819),
   (0x1946, 0x194f), (0x19d0, 0x19da), (0x1a80, 0x1a89), (0x1a90, 0x1a99),
   (0x1b50, 0x1b59), (0x1bb0, 0x1bb9), (0x1c40, 0x1c49), (0x1c50, 0x1c59),
   (0x2070, 0x2070), (0x2074, 0x2079), (0x2080, 0x2089), (0x2460, 0x2468),
   (0x2474, 0x247c), (0x2488, 0x2490), (0x24ea, 0x24ea), (0x24f5, 0x24fd),
   (0x24ff, 0x24ff), (0x2776, 0x277e), (0x2780, 0x2788), (0x278a, 0x2792),
   (0xa620, 0xa629), (0xa8d0, 0xa8d9), (0xa900, 0xa909), (0xa9d0, 0xa9d9),
   (0xa9f0, 0xa9f9), (0xaa50, 0xaa59), (0xabf0, 0xabf9), (0xff10, 0xff19),
   (0x104a0, 0x104a9), (0x10a40, 0x10a43), (0x10d30, 0x10d39), (0x10e60, 0x10e68),
   (0x11052, 0x1105a), (0x11066, 0x1106f), (0x110f0, 0x110f9), (0x11136, 0x1113f),
   (0x111d0, 0x111d9), (0x112f0, 0x112f9), (0x11450, 0x11459), (0x114d0, 0x114d9),
   (0x11650, 0x11659), (0x116c0, 0x116c9), (0x11730, 0x11739), (0x118e0, 0x118e9),
   (0x11950, 0x11959), (0x11c50, 0x11c59), (0x11d50, 0x11d59), (0x11da0, 0x11da9),
   (0x16a60, 0x16a69), (0x16ac0, 0x16ac9), (0x16b50, 0x16b59), (0x1d7ce, 0x1d7ff),
   (0x1e140, 0x1e149), (0x1e2f0, 0x1e2f9), (0x1e950, 0x1e959), (0x1f100, 0x1f10a),
   (0x1fbf0, 0x1fbf9)]

/-- Python `str.isdigit` on one character: membership in one of the
`pyDigitRanges`. -/
def pyIsDigitChar (c : Nat) : Bool :=
  pyDigitRanges.any (fun p => p.1 ≤ c && c ≤ p.2)

/-- An ASCII digit `0`-`9`. -/
def isAsciiDigit (c : Nat) : Bool := 48 ≤ c && c ≤ 57

/-- Python `value.strip()`. -/
def pyStrip (s : List Nat) : List Nat :=
  ((s.dropWhile pyIsSpace).reverse.dropWhile pyIsSpace).reverse

/-- Python `value.isdigit()`: false on an empty string, else true when every
character is a digit. -/
def pyIsDigitStr (s : List Nat) : Bool := !s.isEmpty && s.all pyIsDigitChar

/-- The observable result of `UpdateRoomNumberModal.on_submit`: the
in-memory `room_number` global, the persistence state, whether the input
passed validation, and whether `save_room_number` raised. -/
structure RoomSubmit where
  room_number : List Nat
  store : Store
  accepted : Bool
  raised : Bool

/-- Models `UpdateRoomNumberModal.on_submit` (src/hostbot.py lines 658-671):
strip the input; when it is all digits and exactly 11 characters long,
assign the `room_number` global and persist it, else reply with the
rejection message and leave both the global and the stored state alone. -/
def on_submit_room (room_number : List Nat) (st : Store) (input : List Nat) : RoomSubmit :=
  if pyIsDigitStr (pyStrip input) && (pyStrip input).length == 11 then
    match save_room_number st (pyStrip input) with
    | .ok st2 => ⟨pyStrip input, st2, true, false⟩
    | .error _ => ⟨pyStrip input, st, true, true⟩
  else ⟨room_number, st, false, false⟩

end VenueBot

namespace VenueBot

/-! ## Lemmas about the base64 alphabet tables -/

theorem decChar_encChar {k : Nat} (hk : k < 64) : decChar (encChar k) = some k := by
  have h : ∀ i : Fin 64, decChar (encChar i.val) = some i.val := by decide
  exact h ⟨k, hk⟩

theorem encChar_lt {k : Nat} (hk : k < 64) : encChar k < 128 := by
  have h : ∀ i : Fin 64, encChar i.val < 128 := by decide
  exact h ⟨k, hk⟩

theorem decChar_pad : decChar padChar = none := by decide

theorem padChar_lt : padChar < 128 := by decide

/-! ## Stepping lemmas for the `a2b` decode loop -/

theorem a2b_data0 {c v : Nat} (hv : decChar c = some v) (rest : List Nat) (l p : Nat) :
    a2b (c :: rest) 0 l p = a2b rest 1 v 0 := by
  have hc : ¬ c = padChar := by
    intro e; rw [e, decChar_pad] at hv; cases hv
  simp only [a2b, if_neg hc, hv]

theorem a2b_data1 {c v : Nat} (hv : decChar c = some v) (rest : List Nat) (l p : Nat) :
    a2b (c :: rest) 1 l p =
      (a2b rest 2 (v % 16) 0).map (fun bs => (l * 4 + v / 16) :: bs) := by
  have hc : ¬ c = padChar := by
    intro e; rw [e, decChar_pad] at hv; cases hv
  simp only [a2b, if_neg hc, hv]

theorem a2b_data2 {c v : Nat} (hv : decChar c = some v) (rest : List Nat) (l p : Nat) :
    a2b (c :: rest) 2 l p =
      (a2b rest 3 (v % 4) 0).map (fun bs => (l * 16 + v / 4) :: bs) := by
  have hc : ¬ c = padChar := by
    intro e; rw [e, decChar_pad] at hv; cases hv
  simp only [a2b, if_neg hc, hv]

theorem a2b_data3 {c v : Nat} (hv : decChar c = some v) (rest : List Nat) (l p : Nat) :
    a2b (c :: rest) 3 l p =
      (a2b rest 0 0 0).map (fun bs => (l * 64 + v) :: bs) := by
  have hc : ¬ c = padChar := by
    intro e; rw [e, decChar_pad] at hv; cases hv
  simp only [a2b, if_neg hc, hv]

theorem a2b_pad2 (rest : List Nat) (l : Nat) :
    a2b (padChar :: rest) 2 l 0 = a2b rest 2 l 1 := by
  simp only [a2b, if_pos rfl]
  norm_num

theorem a2b_pad2_done (rest : List Nat) (l : Nat) :
    a2b (padChar :: rest) 2 l 1 = .ok [] := by
  simp only [a2b, if_pos rfl]
  norm_num

theorem a2b_pad3_done (rest : List Nat) (l : Nat) :
    a2b (padChar :: rest) 3 l 0 = .ok [] := by
  simp only [a2b, if_pos rfl]
  norm_num

/-! ## Round trip of the base64 layer -/

theorem a2b_b64encode : ∀ (bs : List Nat), (∀ b ∈ bs, b < 256) →
    a2b (b64encode bs) 0 0 0 = Except.ok bs
  | [], _ => rfl
  | [b1], h => by
    have h1 : b1 < 256 := h b1 (by simp)
    have e1 := decChar_encChar (k := b1 / 4) (by omega)
    have e2 := decChar_encChar (k := b1 % 4 * 16) (by omega)
    show a2b [encChar (b1 / 4), encChar (b1 % 4 * 16), padChar, padChar] 0 0 0 =
      Except.ok [b1]
    rw [a2b_data0 e1, a2b_data1 e2, a2b_pad2, a2b_pad2_done]
    simp only [Except.map]
    have : b1 / 4 * 4 + b1 % 4 * 16 / 16 = b1 := by omega
    rw [this]
  | [b1, b2], h => by
    have h1 : b1 < 256 := h b1 (by simp)
    have h2 : b2 < 256 := h b2 (by simp)
    have e1 := decChar_encChar (k := b1 / 4) (by omega)
    have e2 := decChar_encChar (k := b1 % 4 * 16 + b2 / 16) (by omega)
    have e3 := decChar_encChar (k := b2 % 16 * 4) (by omega)
    show a2b [encChar (b1 / 4), encChar (b1 % 4 * 16 + b2 / 16),
              encChar (b2 % 16 * 4), padChar] 0 0 0 = Except.ok [b1, b2]
    rw [a2b_data0 e1, a2b_data1 e2, a2b_data2 e3, a2b_pad3_done]
    simp only [Except.map]
    have g1 : b1 / 4 * 4 + (b1 % 4 * 16 + b2 / 16) / 16 = b1 := by omega
    have g2 : (b1 % 4 * 16 + b2 / 16) % 16 * 16 + b2 % 16 * 4 / 4 = b2 := by omega
    rw [g1, g2]
  | b1 :: b2 :: b3 :: rest, h => by
    have h1 : b1 < 256 := h b1 (by simp)
    have h2 : b2 < 256 := h b2 (by simp)
    have h3 : b3 < 256 := h b3 (by simp)
    have ih := a2b_b64encode rest (fun b hb => h b (by simp [hb]))
    have e1 := decChar_encChar (k := b1 / 4) (by omega)
    have e2 := decChar_encChar (k := b1 % 4 * 16 + b2 / 16) (by omega)
    have e3 := decChar_encChar (k := b2 % 16 * 4 + b3 / 64) (by omega)
    have e4 := decChar_encChar (k := b3 % 64) (by omega)
    show a2b (encChar (b1 / 4) :: encChar (b1 % 4 * 16 + b2 / 16) ::
              encChar (b2 % 16 * 4 + b3 / 64) :: encChar (b3 % 64) ::
              b64encode rest) 0 0 0 = Except.ok (b1 :: b2 :: b3 :: rest)
    rw [a2b_data0 e1, a2b_data1 e2, a2b_data2 e3, a2b_data3 e4, ih]
    simp only [Except.map]
    have g1 : b1 / 4 * 4 + (b1 % 4 * 16 + b2 / 16) / 16 = b1 := by omega
    have g2 : (b1 % 4 * 16 + b2 / 16) % 16 * 16 + (b2 % 16 * 4 + b3 / 64) / 4 = b2 := by
      omega
    have g3 : (b2 % 16 * 4 + b3 / 64) % 4 * 64 + b3 % 64 = b3 := by omega
    rw [g1, g2, g3]

theorem b64decode_encode (bs : List Nat) (h : ∀ b ∈ bs, b < 256) :
    b64decode (b64encode bs) = Except.ok bs :=
  a2b_b64encode bs h

theorem b64encode_ascii : ∀ (bs : List Nat), (∀ b ∈ bs, b < 256) →
    ∀ c ∈ b64encode bs, c < 128
  | [], _ => by intro c hc; simp [b64encode] at hc
  | [b1], h => by
    intro c hc
    have h1 : b1 < 256 := h b1 (by simp)
    simp only [b64encode, List.mem_cons, List.not_mem_nil, or_false] at hc
    rcases hc with rfl | rfl | rfl | rfl
    · exact encChar_lt (by omega)
    · exact encChar_lt (by omega)
    · exact padChar_lt
    · exact padChar_lt
  | [b1, b2], h => by
    intro c hc
    have h1 : b1 < 256 := h b1 (by simp)
    have h2 : b2 < 256 := h b2 (by simp)
    simp only [b64encode, List.mem_cons, List.not_mem_nil, or_false] at hc
    rcases hc with rfl | rfl | rfl | rfl
    · exact encChar_lt (by omega)
    · exact encChar_lt (by omega)
    · exact encChar_lt (by omega)
    · exact padChar_lt
  | b1 :: b2 :: b3 :: rest, h => by
    intro c hc
    have h1 : b1 < 256 := h b1 (by simp)
    have h2 : b2 < 256 := h b2 (by simp)
    have h3 : b3 < 256 := h b3 (by simp)
    have ih := b64encode_ascii rest (fun b hb => h b (by simp [hb]))
    simp only [b64encode, List.mem_cons] at hc
    rcases hc with rfl | rfl | rfl | rfl | hc
    · exact encChar_lt (by omega)
    · exact encChar_lt (by omega)
    · exact encChar_lt (by omega)
    · exact encChar_lt (by omega)
    · exact ih c hc

/-! ## UTF-8 layer -/

theorem utf8EncodeChar_lt {c : Nat} (hc : c < 0x110000) :
    ∀ b ∈ utf8EncodeChar c, b < 256 := by
  intro b hb
  unfold utf8EncodeChar at hb
  split_ifs at hb with h1 h2 h3 <;>
    simp only [List.mem_cons, List.not_mem_nil, or_false] at hb
  · omega
  · rcases hb with rfl | rfl <;> omega
  · rcases hb with rfl | rfl | rfl <;> omega
  · rcases hb with rfl | rfl | rfl | rfl <;> omega

theorem utf8Encode_lt : ∀ (s : List Nat), (∀ c ∈ s, c < 0x110000) →
    ∀ b ∈ utf8Encode s, b < 256
  | [], _ => by intro b hb; simp [utf8Encode] at hb
  | c :: cs, h => by
    intro b hb
    simp only [utf8Encode, List.mem_append] at hb
    rcases hb with hb | hb
    · exact utf8EncodeChar_lt (h c (by simp)) b hb
    · exact utf8Encode_lt cs (fun x hx => h x (by simp [hx])) b hb

theorem isCont_def {b : Nat} : isCont b ↔ (0x80 ≤ b ∧ b < 0xC0) := Iff.rfl

theorem utf8Decode_step1 {b1 : Nat} (h : b1 < 0x80) (rest : List Nat) :
    utf8Decode (b1 :: rest) = (utf8Decode rest).map (b1 :: ·) := by
  rw [utf8Decode.eq_2, if_pos h]

theorem utf8Decode_step2 {b1 b2 : Nat} (h1 : ¬ b1 < 0x80) (h2 : ¬ b1 < 0xC2)
    (h3 : b1 < 0xE0) (h4 : isCont b2) (rest : List Nat) :
    utf8Decode (b1 :: b2 :: rest) = (utf8Decode rest).map (scalar2 b1 b2 :: ·) := by
  rw [utf8Decode.eq_2, if_neg h1, if_neg h2, if_pos h3, utf8Cont1, if_pos h4]

theorem utf8Decode_step3 {b1 b2 b3 : Nat} (h1 : ¬ b1 < 0x80) (h2 : ¬ b1 < 0xC2)
    (h3 : ¬ b1 < 0xE0) (h4 : b1 < 0xF0) (h5 : valid3 b1 b2 b3) (rest : List Nat) :
    utf8Decode (b1 :: b2 :: b3 :: rest) =
      (utf8Decode rest).map (scalar3 b1 b2 b3 :: ·) := by
  rw [utf8Decode.eq_2, if_neg h1, if_neg h2, if_neg h3, if_pos h4, utf8Cont2, if_pos h5]

theorem utf8Decode_step4 {b1 b2 b3 b4 : Nat} (h1 : ¬ b1 < 0x80) (h2 : ¬ b1 < 0xC2)
    (h3 : ¬ b1 < 0xE0) (h4 : ¬ b1 < 0xF0) (h5 : b1 < 0xF5) (h6 : valid4 b1 b2 b3 b4)
    (rest : List Nat) :
    utf8Decode (b1 :: b2 :: b3 :: b4 :: rest) =
      (utf8Decode rest).map (scalar4 b1 b2 b3 b4 :: ·) := by
  rw [utf8Decode.eq_2, if_neg h1, if_neg h2, if_neg h3, if_neg h4, if_pos h5,
      utf8Cont3, if_pos h6]

theorem utf8Decode_encode : ∀ (s : List Nat), (∀ c ∈ s, isValidScalar c) →
    utf8Decode (utf8Encode s) = some s
  | [], _ => rfl
  | c :: cs, h => by
    have hc : c < 0xD800 ∨ (0xE000 ≤ c ∧ c < 0x110000) := h c (by simp)
    have ih := utf8Decode_encode cs (fun x hx => h x (by simp [hx]))
    show utf8Decode (utf8EncodeChar c ++ utf8Encode cs) = some (c :: cs)
    unfold utf8EncodeChar
    by_cases h1 : c < 0x80
    · rw [if_pos h1]
      simp only [List.cons_append, List.nil_append]
      rw [utf8Decode_step1 h1, ih]
      rfl
    · rw [if_neg h1]
      by_cases h2 : c < 0x800
      · rw [if_pos h2]
        simp only [List.cons_append, List.nil_append]
        rw [utf8Decode_step2 (by omega) (by omega) (by omega)
              (isCont_def.mpr (by omega)), ih]
        have hv : scalar2 (0xC0 + c / 64) (0x80 + c % 64) = c := by
          unfold scalar2; omega
        rw [hv]
        rfl
      · rw [if_neg h2]
        by_cases h3 : c < 0x10000
        · rw [if_pos h3]
          simp only [List.cons_append, List.nil_append]
          have hval : valid3 (0xE0 + c / 4096) (0x80 + c / 64 % 64) (0x80 + c % 64) := by
            unfold valid3 isCont scalar3; omega
          rw [utf8Decode_step3 (by omega) (by omega) (by omega) (by omega) hval, ih]
          have hv : scalar3 (0xE0 + c / 4096) (0x80 + c / 64 % 64) (0x80 + c % 64) = c := by
            unfold scalar3; omega
          rw [hv]
          rfl
        · rw [if_neg h3]
          simp only [List.cons_append, List.nil_append]
          have hval : valid4 (0xF0 + c / 262144) (0x80 + c / 4096 % 64)
              (0x80 + c / 64 % 64) (0x80 + c % 64) := by
            unfold valid4 isCont scalar4; omega
          rw [utf8Decode_step4 (by omega) (by omega) (by omega) (by omega) (by omega)
                hval, ih]
          have hv : scalar4 (0xF0 + c / 262144) (0x80 + c / 4096 % 64)
              (0x80 + c / 64 % 64) (0x80 + c % 64) = c := by
            unfold scalar4; omega
          rw [hv]
          rfl

theorem isValidScalar_lt {c : Nat} (hc : isValidScalar c) : c < 0x110000 := by
  rcases hc with h | h <;> omega

/-! ## C1 and C2: the identity codec -/

/-- C1.  For every display name that is a valid Unicode string (every scalar
outside the surrogate range, which is exactly what `str.encode()` accepts),
the queue worker's decode `base64.b64decode(token).decode()` recovers the
name byte-for-byte from the token produced by the encode of
`save_zoom_name_to_file`, `base64.b64encode(name.encode()).decode()`. -/
theorem codec_roundtrip (name : List Nat) (h : ∀ c ∈ name, isValidScalar c) :
    decodeToken (b64encode (utf8Encode name)) = .ok name := by
  have hbytes : ∀ b ∈ utf8Encode name, b < 256 :=
    utf8Encode_lt name (fun c hc => isValidScalar_lt (h c hc))
  have hascii : ∀ c ∈ b64encode (utf8Encode name), c < 128 :=
    b64encode_ascii _ hbytes
  unfold decodeToken
  rw [if_pos hascii, b64decode_encode _ hbytes]
  show (match utf8Decode (utf8Encode name) with
        | some text => PyDecodeResult.ok text
        | none => PyDecodeResult.unicodeDecodeError) = .ok name
  rw [utf8Decode_encode name h]

/-- Witness for `codec_roundtrip` at the name `"Hé€😀"` (scalars
`[72, 233, 8364, 128512]`, covering the 1-, 2-, 3- and 4-byte UTF-8 forms). -/
theorem codec_roundtrip_witness :
    (∀ c ∈ [72, 233, 8364, 128512], isValidScalar c) ∧
    decodeToken (b64encode (utf8Encode [72, 233, 8364, 128512])) =
      .ok [72, 233, 8364, 128512] :=
  ⟨by decide, codec_roundtrip [72, 233, 8364, 128512] (by decide)⟩

/-- Counterexample to C2 as stated: the input `"!"` contains a character
outside the codec alphabet (`decChar 33 = none` and `33` is not the pad
character), yet decode does not fail — `b64decode` silently discards
non-alphabet characters, so the result is the empty string. -/
theorem decode_discard_cex :
    decChar 33 = none ∧ (33 : Nat) ≠ padChar ∧ decodeToken [33] = .ok [] := by
  decide

/-- C2 (amended).  The decode pipeline raises outside the
`{binascii.Error, UnicodeDecodeError}` family exactly on tokens containing a
non-ASCII character (a plain `ValueError`); for pure-ASCII tokens it either
succeeds or fails inside that family — but non-alphabet ASCII characters are
discarded rather than rejected, so not every invalid-alphabet input fails. -/
theorem decode_error_family (token : List Nat) :
    decodeToken token ≠ .valueError ↔ ∀ c ∈ token, c < 128 := by
  unfold decodeToken
  by_cases h : ∀ c ∈ token, c < 128
  · rw [if_pos h]
    refine iff_of_true ?_ h
    cases hb : b64decode token with
    | error e => simp
    | ok bytes => cases hu : utf8Decode bytes <;> simp [hu]
  · rw [if_neg h]
    simp [h]

/-! ## C3, C6, C7: the co-host request queue and its worker -/

theorem enqueueAll_spec : ∀ (rs : List Request) (q : List Request),
    enqueueAll q rs = (q ++ rs, List.range' (q.length + 1) rs.length)
  | [], q => by simp [enqueueAll]
  | r :: rs, q => by
    have ih := enqueueAll_spec rs (q ++ [r])
    simp only [enqueueAll, selfAssignEnqueue, enqueuePut, qsize, ih, List.range'_succ,
      List.length_append, List.length_cons, List.length_nil, List.append_assoc,
      List.singleton_append, List.cons_append, List.nil_append]

theorem workerRun_spec (trigger : Request → Bool) (delay : Nat) :
    ∀ (q : List Request) (log : List WorkerEvent) (clock : Nat),
      workerRun trigger delay ⟨q, log, clock⟩ q.length =
        ⟨[], log ++ q.map (fun r => processRequest (trigger r) r),
         clock + q.length * delay⟩
  | [], log, clock => by simp [workerRun]
  | r :: q, log, clock => by
    have ih := workerRun_spec trigger delay q (log ++ [processRequest (trigger r) r])
      (clock + delay)
    show workerRun trigger delay ⟨r :: q, log, clock⟩ (q.length + 1) = _
    rw [workerRun,
        show workerStep trigger delay ⟨r :: q, log, clock⟩ =
          ⟨q, log ++ [processRequest (trigger r) r], clock + delay⟩ from rfl,
        ih]
    simp only [List.append_assoc, List.singleton_append, List.map_cons,
      List.length_cons, WorkerState.mk.injEq, Nat.succ_mul]
    exact ⟨trivial, trivial, by omega⟩

/-- C3.  Enqueuing `N` requests sequentially from an empty queue reports the
positions `1, 2, ..., N` (each enqueue reports the queue size right after its
own insertion), leaves the queue holding the requests in enqueue order, and
the worker then dequeues and processes them in exactly that order, whatever
the trigger outcomes are. -/
theorem queue_positions_fifo (rs : List Request) (trigger : Request → Bool) (delay : Nat) :
    (enqueueAll [] rs).2 = List.range' 1 rs.length ∧
    (enqueueAll [] rs).1 = rs ∧
    (workerRun trigger delay ⟨rs, [], 0⟩ rs.length).log =
      rs.map (fun r => processRequest (trigger r) r) := by
  refine ⟨?_, ?_, ?_⟩
  · rw [enqueueAll_spec]; rfl
  · rw [enqueueAll_spec]; rfl
  · rw [workerRun_spec]; rfl

/-- C6.  Whatever happens while processing the head request — the trigger
call failing, or the reporting decode of a corrupted `encoded_name` raising
inside the `try` — the worker removes exactly that one request, emits exactly
one log event for it, and goes on to drain the entire rest of the queue. -/
theorem worker_poison_resilient (trigger : Request → Bool) (delay : Nat)
    (st : WorkerState) (r : Request) (rest : List Request) (h : st.queue = r :: rest) :
    (workerStep trigger delay st).queue = rest ∧
    (workerStep trigger delay st).log = st.log ++ [processRequest (trigger r) r] ∧
    (workerRun trigger delay st (rest.length + 1)).queue = [] := by
  obtain ⟨q, log, clock⟩ := st
  have hq : q = r :: rest := h
  subst hq
  refine ⟨rfl, rfl, ?_⟩
  rw [show rest.length + 1 = (r :: rest).length from rfl, workerRun_spec]

/-- Witness for `worker_poison_resilient`: the head request carries the
corrupt token `"A"` (its decode is a `binascii.Error`, so the processing
step degenerates to `workerError`), the trigger mock always fails, and the
worker still dequeues it and then drains the following request. -/
theorem worker_poison_resilient_witness :
    processRequest false ⟨[65]⟩ = .workerError ∧
    (workerStep (fun _ => false) 10 ⟨[⟨[65]⟩, ⟨[81, 81, 61, 61]⟩], [], 0⟩).queue =
      [⟨[81, 81, 61, 61]⟩] ∧
    (workerRun (fun _ => false) 10 ⟨[⟨[65]⟩, ⟨[81, 81, 61, 61]⟩], [], 0⟩ 2).queue = [] :=
  ⟨by decide,
   (worker_poison_resilient (fun _ => false) 10 ⟨[⟨[65]⟩, ⟨[81, 81, 61, 61]⟩], [], 0⟩
      ⟨[65]⟩ [⟨[81, 81, 61, 61]⟩] rfl).1,
   (worker_poison_resilient (fun _ => false) 10 ⟨[⟨[65]⟩, ⟨[81, 81, 61, 61]⟩], [], 0⟩
      ⟨[65]⟩ [⟨[81, 81, 61, 61]⟩] rfl).2.2⟩

theorem workerRun_clock (trigger : Request → Bool) (delay : Nat) :
    ∀ (n : Nat) (st : WorkerState), n ≤ st.queue.length →
      (workerRun trigger delay st n).clock = st.clock + n * delay
  | 0, st, _ => by simp [workerRun]
  | n + 1, st, h => by
    obtain ⟨q, log, clock⟩ := st
    cases q with
    | nil => simp at h
    | cons r rest =>
      have ih := workerRun_clock trigger delay n
        ⟨rest, log ++ [processRequest (trigger r) r], clock + delay⟩
        (by simp only [List.length_cons] at h ⊢; omega)
      show (workerRun trigger delay ⟨r :: rest, log, clock⟩ (n + 1)).clock = _
      rw [workerRun,
          show workerStep trigger delay ⟨r :: rest, log, clock⟩ =
            ⟨rest, log ++ [processRequest (trigger r) r], clock + delay⟩ from rfl,
          ih]
      simp only [Nat.succ_mul]
      omega

/-- C7.  After every processed item — success, failure or caught error alike,
since the `asyncio.sleep(queue_delay)` sits outside the `try`/`except` — the
clock advances by exactly the configured cooldown before the next item is
dequeued: after `n` processed items the clock reads `n * delay`, so the
`(n+1)`-th dequeue cannot happen earlier.  The cooldown's initial value is
10 seconds and it is one of the runtime-adjustable globals. -/
theorem worker_cooldown (trigger : Request → Bool) (delay : Nat) (st : WorkerState)
    (n : Nat) (h : n ≤ st.queue.length) :
    (workerRun trigger delay st n).clock = st.clock + n * delay ∧ queue_delay = 10 :=
  ⟨workerRun_clock trigger delay n st h, rfl⟩

/-- Witness for `worker_cooldown` on a two-request queue with a failing
trigger and the default 10-second cooldown. -/
theorem worker_cooldown_witness :
    2 ≤ (WorkerState.mk [⟨[81, 81, 61, 61]⟩, ⟨[65]⟩] [] 0).queue.length ∧
    (workerRun (fun _ => false) 10 ⟨[⟨[81, 81, 61, 61]⟩, ⟨[65]⟩], [], 0⟩ 2).clock =
      0 + 2 * 10 :=
  ⟨by decide,
   (worker_cooldown (fun _ => false) 10 ⟨[⟨[81, 81, 61, 61]⟩, ⟨[65]⟩], [], 0⟩ 2
      (by decide)).1⟩

/-! ## C5: the trigger client -/

/-- C5.  `_call_trigger` returns `true` exactly when the POST got a 2xx
response whose body was fully read and the token was present; every other
outcome — missing credential, `HTTPError` (non-2xx), any transport failure —
yields `false`.  The function is total on every modelled outcome: each
exception path of the source ends in a `return False`, so the boolean is the
sole error channel. -/
theorem trigger_bool_channel (token trigger : List Nat) (params : Option (List Nat))
    (outcome : HttpOutcome) :
    _call_trigger token trigger params outcome = true ↔
      (token ≠ [] ∧ ∃ body, outcome = .success body) := by
  unfold _call_trigger
  by_cases h : token = []
  · simp [h]
  · cases outcome <;> simp [h]

/-! ## C8, C9, C10: the key-value store -/

/-- C8.  When the remote backend is configured but raising, `save_data`
falls through to the local file, so the value reaches local storage, and a
subsequent `load_data` (whose remote read fails the same way) returns
exactly the saved document. -/
theorem remote_write_fallback (st : Store) (d : Dict) (h : st.remote = .failing) :
    (save_data st d).localFile = .stored d ∧ load_data (save_data st d) = d := by
  obtain ⟨rem, lf⟩ := st
  cases rem with
  | failing => exact ⟨rfl, rfl⟩
  | absent => exact RemoteState.noConfusion h
  | ready db => exact RemoteState.noConfusion h

/-- Witness for `remote_write_fallback` on an initially missing local file. -/
theorem remote_write_fallback_witness :
    (Store.mk .failing .missing).remote = .failing ∧
    load_data (save_data ⟨.failing, .missing⟩ [(DATA_USER_PATH, Json.jobj [])]) =
      [(DATA_USER_PATH, Json.jobj [])] :=
  ⟨rfl, (remote_write_fallback ⟨.failing, .missing⟩ [(DATA_USER_PATH, Json.jobj [])] rfl).2⟩

/-- C9.  With no remote backend, `load_data` returns the empty mapping both
when the local file is missing (`FileNotFoundError`) and when its contents
are not valid JSON (`json.JSONDecodeError`, logged); being a total function
into `Dict`, it propagates no error to the caller in either case. -/
theorem local_load_empty (st : Store) (h : st.remote = .absent) :
    (st.localFile = .missing → load_data st = []) ∧
    (st.localFile = .corrupt → load_data st = []) := by
  obtain ⟨rem, lf⟩ := st
  cases rem with
  | absent =>
    cases lf with
    | missing => exact ⟨fun _ => rfl, fun hx => LocalFile.noConfusion hx⟩
    | corrupt => exact ⟨fun hx => LocalFile.noConfusion hx, fun _ => rfl⟩
    | stored d => exact ⟨fun hx => LocalFile.noConfusion hx, fun hx => LocalFile.noConfusion hx⟩
  | failing => exact RemoteState.noConfusion h
  | ready db => exact RemoteState.noConfusion h

/-- Witness for `local_load_empty` at a missing local file. -/
theorem local_load_empty_witness :
    (Store.mk .absent .missing).remote = .absent ∧
    load_data ⟨.absent, .missing⟩ = [] :=
  ⟨rfl, (local_load_empty ⟨.absent, .missing⟩ rfl).1 rfl⟩

theorem setInnerKey_wfDict (store : Dict) (h : wfDict store = true) (k2 : List Nat)
    (v : Json) :
    ∃ d2, setInnerKey store DATA_USER_PATH k2 v = .ok d2 := by
  unfold wfDict at h
  unfold setInnerKey
  cases hg : dictGet store DATA_USER_PATH with
  | none => exact ⟨_, rfl⟩
  | some j =>
    rw [hg] at h
    cases j with
    | jobj fields => exact ⟨_, rfl⟩
    | jnull => exact Bool.noConfusion h
    | jstr a => exact Bool.noConfusion h
    | jnum n => exact Bool.noConfusion h

/-- C10.  On every persistence state this program can produce — the remote
backend in use, the remote write failing with the local fallback taken, or
only the local file configured — `save_zoom_name_to_file` returns exactly
the base64 encoding of the name's UTF-8 bytes; the token is the same
expression in every branch, so the caller cannot tell the backends apart
from it. -/
theorem zoom_token_backend_independent (st : Store) (user_id : Nat)
    (zoom_name : List Nat) (now : Nat) (h : wfStore st = true) :
    ∃ st2, save_zoom_name_to_file st user_id zoom_name now =
      .ok (st2, b64encode (utf8Encode zoom_name)) := by
  unfold wfStore at h
  unfold save_zoom_name_to_file
  cases hr : st.remote with
  | ready db => exact ⟨_, rfl⟩
  | absent =>
    obtain ⟨d2, hd⟩ :=
      setInnerKey_wfDict (load_data st) h (natToStr user_id) (zoomRecord zoom_name now)
    rw [hd]
    exact ⟨_, rfl⟩
  | failing =>
    obtain ⟨d2, hd⟩ :=
      setInnerKey_wfDict (load_data st) h (natToStr user_id) (zoomRecord zoom_name now)
    rw [hd]
    exact ⟨_, rfl⟩

/-- Witness for `zoom_token_backend_independent`: local-file-only backend,
fresh store, name `"Hi"`. -/
theorem zoom_token_backend_independent_witness :
    wfStore ⟨.absent, .missing⟩ = true ∧
    ∃ st2, save_zoom_name_to_file ⟨.absent, .missing⟩ 5 [72, 105] 0 =
      .ok (st2, b64encode (utf8Encode [72, 105])) :=
  ⟨by decide, zoom_token_backend_independent ⟨.absent, .missing⟩ 5 [72, 105] 0 (by decide)⟩

/-! ## C4: room number validation -/

/-- Counterexample to C4 as stated: eleven SUPERSCRIPT TWO characters
(U+00B2) form a string that is not made of ASCII digits, yet Python's
`value.isdigit()` is true on it and its length is 11, so the modal accepts
it and stores it; likewise for eleven SUPERSCRIPT FOUR characters
(U+2074). -/
theorem room_number_unicode_cex :
    (on_submit_room [] ⟨.absent, .missing⟩ (List.replicate 11 178)).accepted = true ∧
    (List.replicate 11 178).all isAsciiDigit = false ∧
    (on_submit_room [] ⟨.absent, .missing⟩ (List.replicate 11 0x2074)).accepted = true ∧
    (List.replicate 11 0x2074).all isAsciiDigit = false := by
  decide

/-- C4 (amended).  The room number update succeeds exactly when the input,
after trimming surrounding whitespace, has length 11 and every character is
a Python digit (`str.isdigit`) — a strict superset of the ASCII digits that
also contains, e.g., superscript and Arabic-Indic digits.  On rejection
neither the in-memory `room_number` global nor the stored state is touched;
on acceptance the global becomes the trimmed input.  The four concrete
examples of the claim behave as it says. -/
theorem room_number_validation (rn : List Nat) (st : Store) (input : List Nat) :
    ((on_submit_room rn st input).accepted = true ↔
      (pyIsDigitStr (pyStrip input) = true ∧ (pyStrip input).length = 11)) ∧
    ((on_submit_room rn st input).accepted = false →
      (on_submit_room rn st input).room_number = rn ∧
      (on_submit_room rn st input).store = st) ∧
    ((on_submit_room rn st input).accepted = true →
      (on_submit_room rn st input).room_number = pyStrip input) := by
  unfold on_submit_room
  by_cases hc : (pyIsDigitStr (pyStrip input) && (pyStrip input).length == 11) = true
  · rw [if_pos hc]
    rw [Bool.and_eq_true, beq_iff_eq] at hc
    cases hs : save_room_number st (pyStrip input) with
    | ok st2 => exact ⟨iff_of_true rfl hc, fun hx => Bool.noConfusion hx, fun _ => rfl⟩
    | error e => exact ⟨iff_of_true rfl hc, fun hx => Bool.noConfusion hx, fun _ => rfl⟩
  · rw [if_neg hc]
    rw [Bool.and_eq_true, beq_iff_eq] at hc
    refine ⟨iff_of_false (fun hx => Bool.noConfusion hx) hc, fun _ => ⟨rfl, rfl⟩,
      fun hx => Bool.noConfusion hx⟩

/-- Witness for `room_number_validation`: `" 12345678901 "` is trimmed and
accepted; `"1234567890a"` is rejected and mutates nothing. -/
theorem room_number_validation_witness :
    (on_submit_room [] ⟨.absent, .missing⟩ (pystr " 12345678901 ")).accepted = true ∧
    (on_submit_room [] ⟨.absent, .missing⟩ (pystr "1234567890a")).room_number = [] ∧
    (on_submit_room [] ⟨.absent, .missing⟩ (pystr "1234567890a")).store =
      ⟨.absent, .missing⟩ :=
  ⟨(room_number_validation [] ⟨.absent, .missing⟩ (pystr " 12345678901 ")).1.mpr
     (by decide),
   (room_number_validation [] ⟨.absent, .missing⟩ (pystr "1234567890a")).2.1
     (by decide) |>.1,
   (room_number_validation [] ⟨.absent, .missing⟩ (pystr "1234567890a")).2.1
     (by decide) |>.2⟩

end VenueBot
